import Mathlib

/-!
Verification of the TAQ as-of-join / microstructure-metrics pipeline.

Shallow embedding of:
  * `top50_trades_corresponding_quotes_persist.py` — the per-shard backward
    as-of join (`per_symbol_per_hour_lazy`, polars `join_asof` with
    `strategy="backward"`, `tolerance="1s"`, `by=[SYM_ROOT, SYM_SUFFIX]`),
    the microsecond TS builder (`build_ts_us`), and the streaming parquet
    writer lifecycle of `main`.
  * `ms.py` — the per-ticker microstructure metric columns (SIDE, MID_LAG,
    ARR_MID, IS_BPS, MI_BPS, MID_FWD, MR_BPS) and the summary row count.

Timestamps are epoch microseconds modelled as `Int` (polars `Datetime("us")`);
prices and sizes are `ℚ`; nullable columns are `Option ℚ` with polars null
propagation made explicit.
-/

namespace TAQ

/-- A quote record of one shard, after the per-shard filter of
`per_symbol_per_hour_lazy`.  `ts` is the microsecond TS built by
`build_ts_us`; `seq` models a passthrough native sequence-number column
(the join never consults it). -/
structure Quote where
  symRoot : String
  symSuffix : String
  ts : Int
  bid : ℚ
  ask : ℚ
  bidsiz : ℚ
  asksiz : ℚ
  seq : Nat
deriving DecidableEq

/-- A trade record of one shard. -/
structure Trade where
  symRoot : String
  symSuffix : String
  ts : Int
  price : ℚ
  size : ℚ
  seq : Nat
deriving DecidableEq

/-- One output row of the as-of join: the trade plus the quote selected for
it, or `none` when no quote satisfies the join policy. -/
structure JoinedRecord where
  trade : Trade
  quote : Option Quote
deriving DecidableEq

/-- `TOLERANCE = "1s"` of the source, in microseconds (the unit of TS). -/
def TOLERANCE_US : Int := 1000000

/-- The `by=["SYM_ROOT", "SYM_SUFFIX"]` grouping predicate of `join_asof`. -/
def sameSym (q : Quote) (t : Trade) : Bool :=
  q.symRoot == t.symRoot && q.symSuffix == t.symSuffix

/-- Eligibility of a quote row for the backward scan of one trade: same
by-group and quote TS at or before the trade TS. -/
def backCandidate (t : Trade) (q : Quote) : Bool :=
  sameSym q t && decide (q.ts ≤ t.ts)

/-- Polars `join_asof(..., strategy="backward", tolerance=...)` for one left
row: take the positionally last right row of the same by-group whose key is
`≤` the left key (on a key-sorted right frame this is the most recent match,
the last among equal-key ties), then null the match if it is farther back
than the tolerance. -/
def asofBackwardMatch (tol : Int) (quotes : List Quote) (t : Trade) : Option Quote :=
  ((quotes.filter (backCandidate t)).getLast?).bind
    (fun q => if t.ts - q.ts ≤ tol then some q else none)

/-- The backward as-of join of one shard: one output row per trade, in trade
order, each carrying its backward match. -/
def join_asof_backward (tol : Int) (trades : List Trade) (quotes : List Quote) :
    List JoinedRecord :=
  trades.map (fun t => ⟨t, asofBackwardMatch tol quotes t⟩)

/-- The join performed by `per_symbol_per_hour_lazy` on one
(symbol, day, hour) shard: backward strategy with the fixed 1-second
tolerance. -/
def per_symbol_per_hour_lazy (trades : List Trade) (quotes : List Quote) :
    List JoinedRecord :=
  join_asof_backward TOLERANCE_US trades quotes

/-! ### Timestamp builder (`build_ts_us` of the source, also `query.py`) -/

/-- The `TIME_M` time-of-day value: polars `dt.hour/minute/second` plus
`dt.nanosecond`, the sub-second part in nanoseconds (`< 10^9`). -/
structure TimeOfDay where
  hour : Nat
  minute : Nat
  second : Nat
  nanosecond : Nat
deriving DecidableEq

/-- `build_ts_us`: `DATE.cast(Datetime("us")) + duration(hours, minutes,
seconds, microseconds = nanosecond // 1000)`.  `dateDays` is the DATE as
epoch days; the result is epoch microseconds. -/
def build_ts_us (dateDays : Int) (tm : TimeOfDay) : Int :=
  dateDays * 86400000000 +
    ((tm.hour * 3600000000 + tm.minute * 60000000 + tm.second * 1000000
        + tm.nanosecond / 1000 : Nat) : Int)

/-- The true physical instant of the record in epoch nanoseconds, before any
precision loss. -/
def true_ts_ns (dateDays : Int) (tm : TimeOfDay) : Int :=
  dateDays * 86400000000000 +
    ((tm.hour * 3600000000000 + tm.minute * 60000000000 + tm.second * 1000000000
        + tm.nanosecond : Nat) : Int)

/-! ### Microstructure metrics (`ms.py`, `analyze_ticker`) -/

/-- One row of the merged parquet as consumed by `analyze_ticker` (the
selected columns).  Nullable columns are `Option ℚ`. -/
structure MergedRow where
  symRoot : String
  ts : Int
  price : Option ℚ
  size : Option ℚ
  mid : Option ℚ
  spread : Option ℚ
  depthTob : Option ℚ
deriving DecidableEq

/-- `K_FWD_TRADES = 10` of the source: the event-time lead for MID_FWD. -/
def K_FWD_TRADES : Nat := 10

/-- Polars `when(a >= b)` on nullable columns: a null comparison never
enters the then-branch, so it behaves as `false` here. -/
def geNullFalse (a b : Option ℚ) : Bool :=
  match a, b with
  | some x, some y => decide (y ≤ x)
  | _, _ => false

/-- The SIDE expression: `when(PRICE >= MID).then(1).otherwise(-1)`. -/
def sideOf (price mid : Option ℚ) : ℚ :=
  if geNullFalse price mid then 1 else -1

/-- The PRICE column at row `i` of the sorted sequence. -/
def colPrice (rows : List MergedRow) (i : Nat) : Option ℚ :=
  (rows.get? i).bind MergedRow.price

/-- The MID column at row `i` of the sorted sequence. -/
def colMid (rows : List MergedRow) (i : Nat) : Option ℚ :=
  (rows.get? i).bind MergedRow.mid

/-- The SIDE column at row `i`. -/
def side_col (rows : List MergedRow) (i : Nat) : ℚ :=
  sideOf (colPrice rows i) (colMid rows i)

/-- `MID_LAG = MID.shift(1)`: the previous row's MID, null on the first row. -/
def mid_lag (rows : List MergedRow) (i : Nat) : Option ℚ :=
  match i with
  | 0 => none
  | j + 1 => colMid rows j

/-- `ARR_MID = when(MID_LAG.is_not_null()).then(MID_LAG).otherwise(MID)`. -/
def arr_mid (rows : List MergedRow) (i : Nat) : Option ℚ :=
  match mid_lag rows i with
  | some m => some m
  | none => colMid rows i

/-- `IS_BPS = when(ARR_MID > 0).then(10000 * SIDE * (PRICE - ARR_MID) /
ARR_MID).otherwise(None)`; a null ARR_MID condition also falls to the
otherwise branch, and a null PRICE nulls the then-branch product. -/
def is_bps (rows : List MergedRow) (i : Nat) : Option ℚ :=
  match arr_mid rows i with
  | some a =>
      if 0 < a then
        (colPrice rows i).map (fun p => 10000 * side_col rows i * (p - a) / a)
      else none
  | none => none

/-- `MI_BPS = when(ARR_MID > 0).then(10000 * SIDE * (MID - ARR_MID) /
ARR_MID).otherwise(None)`. -/
def mi_bps (rows : List MergedRow) (i : Nat) : Option ℚ :=
  match arr_mid rows i with
  | some a =>
      if 0 < a then
        (colMid rows i).map (fun m => 10000 * side_col rows i * (m - a) / a)
      else none
  | none => none

/-- `MID_FWD = MID.shift(-K_FWD_TRADES)`: the MID of the row `K` positions
ahead, null when that row does not exist. -/
def mid_fwd (rows : List MergedRow) (i : Nat) : Option ℚ :=
  colMid rows (i + K_FWD_TRADES)

/-- `MR_BPS = when(MID > 0).then(10000 * (-SIDE) * (MID_FWD - MID) /
MID).otherwise(None)`; a null MID_FWD nulls the then-branch product. -/
def mr_bps (rows : List MergedRow) (i : Nat) : Option ℚ :=
  match colMid rows i with
  | some m =>
      if 0 < m then
        (mid_fwd rows i).map (fun f => 10000 * (-(side_col rows i)) * (f - m) / m)
      else none
  | none => none

/-- Event-time ordering used by `.sort("TS")`. -/
def rowLE (a b : MergedRow) : Prop := a.ts ≤ b.ts

instance : DecidableRel rowLE := fun a b => Int.decLe a.ts b.ts

/-- The `base` frame of `analyze_ticker`: filter to the ticker, then sort by
TS (modelled with a stable insertion sort). -/
def base_rows (merged : List MergedRow) (ticker : String) : List MergedRow :=
  List.insertionSort rowLE (merged.filter (fun r => r.symRoot == ticker))

/-- One row of the `metrics_lf` frame: the source row plus every derived
metric column. -/
structure MetricRow where
  row : MergedRow
  sideV : ℚ
  arrMid : Option ℚ
  isBps : Option ℚ
  miBps : Option ℚ
  midFwd : Option ℚ
  mrBps : Option ℚ
deriving DecidableEq

/-- `analyze_ticker`: the full metric frame for one ticker — every row of
the ticker-filtered, TS-sorted sequence together with its derived columns.
No row is dropped by this stage. -/
def analyze_ticker (merged : List MergedRow) (ticker : String) : List MetricRow :=
  let rows := base_rows merged ticker
  rows.mapIdx (fun i r =>
    ⟨r, side_col rows i, arr_mid rows i, is_bps rows i, mi_bps rows i,
      mid_fwd rows i, mr_bps rows i⟩)

/-- `N_ROWS = pl.len()` of `summary_lf`: the row count of the metric frame. -/
def summary_n_rows (merged : List MergedRow) (ticker : String) : Nat :=
  (analyze_ticker merged ticker).length

/-! ### Streaming writer lifecycle (`main` of the persist script) -/

/-- One slice of `out_df.iter_slices(n_rows=CHUNK_SIZE)`: its row count, and
whether `writer.write_table` raises on it (an uncaught exception). -/
structure Chunk where
  rows : Nat
  writeFails : Bool
deriving DecidableEq

/-- The outcome of one (symbol, day, hour) iteration of the driver loop:
the pre-count raises (caught, loop continues), the shard has no data
(skipped), `collect` raises (caught, loop continues), or the shard collects
into a list of chunks to write. -/
inductive ShardOutcome where
  | preCountErr : ShardOutcome
  | noData : ShardOutcome
  | collectErr : ShardOutcome
  | collected : List Chunk → ShardOutcome
deriving DecidableEq

/-- Writer-relevant run state: whether the parquet writer has been opened,
how many times it has been closed, the accumulated row total, and whether
an uncaught exception has terminated the run. -/
structure RunState where
  writerOpen : Bool
  closeCount : Nat
  totalRows : Nat
  aborted : Bool
deriving DecidableEq

/-- State at `writer = None; total_rows = 0`. -/
def initState : RunState := ⟨false, 0, 0, false⟩

/-- Writing one chunk: empty chunks are skipped; the writer is opened
lazily on the first non-empty chunk; a raising `write_table` propagates out
of `main` (no handler), leaving the writer un-closed. -/
def write_chunk (s : RunState) (c : Chunk) : RunState :=
  if s.aborted then s
  else if c.rows = 0 then s
  else
    let s1 : RunState := { s with writerOpen := true }
    if c.writeFails then { s1 with aborted := true }
    else { s1 with totalRows := s1.totalRows + c.rows }

/-- One iteration of the driver loop: pre-count and collect failures are
caught per shard (`except ... continue`), empty shards are skipped, and
collected chunks are written in order. -/
def process_shard (s : RunState) (o : ShardOutcome) : RunState :=
  if s.aborted then s
  else
    match o with
    | .preCountErr => s
    | .noData => s
    | .collectErr => s
    | .collected cs => cs.foldl write_chunk s

/-- The driver of `main`: fold the shard loop, then `if writer:
writer.close()` — reached only when no exception escaped the loop. -/
def main_run (shards : List ShardOutcome) : RunState :=
  let s := shards.foldl process_shard initState
  if s.aborted then s
  else if s.writerOpen then { s with closeCount := s.closeCount + 1 }
  else s

/-! ### Concrete records used by witnesses and counterexamples -/

/-- A quote at TS 100 with sequence number 5, positioned first. -/
def q100a : Quote := ⟨"ABC", "", 100, 10, 11, 5, 5, 5⟩

/-- A quote at the same TS 100 with the lower sequence number 3, positioned
second. -/
def q100b : Quote := ⟨"ABC", "", 100, 12, 13, 6, 6, 3⟩

/-- A stale quote, more than one second (in microseconds) before `tFar`. -/
def qOld : Quote := ⟨"ABC", "", 100, 10, 11, 5, 5, 1⟩

/-- A trade at TS 100. -/
def t100 : Trade := ⟨"ABC", "", 100, 10, 1, 1⟩

/-- A trade more than the tolerance after `qOld`. -/
def tFar : Trade := ⟨"ABC", "", 2000000, 10, 1, 2⟩

/-- A merged row with a null PRICE and SIZE (a quote with no matched
trade). -/
def rNullPrice : MergedRow := ⟨"UBER", 100, none, none, some 10, some 1, some 7⟩

/-- A merged row with PRICE above MID. -/
def rOk : MergedRow := ⟨"UBER", 200, some 11, some 5, some 10, some 1, some 7⟩

/-- A merged row whose MID is null (a trade with no matched quote). -/
def rNullMid : MergedRow := ⟨"UBER", 100, some 9, some 2, none, none, none⟩

/-- A merged row with PRICE 101 and MID 100. -/
def rMid : MergedRow := ⟨"UBER", 300, some 101, some 3, some 100, some 1, some 7⟩

/-- One shard outcome whose second chunk fails to write: the writer is
opened by the first chunk and the second write raises. -/
def failingShards : List ShardOutcome := [.collected [⟨5, false⟩, ⟨3, true⟩]]

/-- A clean run: one shard, one non-empty chunk, no failure. -/
def cleanShards : List ShardOutcome := [.noData, .collected [⟨5, false⟩]]

/-! ### General helper lemmas -/

theorem getLast?_eq_some_mem {α : Type} {l : List α} {a : α}
    (h : l.getLast? = some a) : a ∈ l := by
  induction l with
  | nil => simp at h
  | cons b t ih =>
    cases t with
    | nil =>
      simp only [List.getLast?_singleton, Option.some.injEq] at h
      simp [h]
    | cons c t2 =>
      rw [List.getLast?_cons_cons] at h
      exact List.mem_cons_of_mem _ (ih h)

theorem pairwise_getLast?_ub {α : Type} {R : α → α → Prop} :
    ∀ {l : List α} {a : α}, l.Pairwise R → l.getLast? = some a →
      ∀ x ∈ l, x = a ∨ R x a := by
  intro l
  induction l with
  | nil => intro a _ h; simp at h
  | cons b t ih =>
    intro a hp hl x hx
    cases t with
    | nil =>
      simp only [List.getLast?_singleton, Option.some.injEq] at hl
      simp only [List.mem_singleton] at hx
      exact Or.inl (hx.trans hl)
    | cons c t2 =>
      rw [List.getLast?_cons_cons] at hl
      rcases List.mem_cons.mp hx with rfl | hx2
      · exact Or.inr ((List.pairwise_cons.mp hp).1 a (getLast?_eq_some_mem hl))
      · exact ih (List.pairwise_cons.mp hp).2 hl x hx2

theorem filter_getLast?_split {α : Type} (p : α → Bool) :
    ∀ {l : List α} {a : α}, (l.filter p).getLast? = some a →
      ∃ l1 l2, l = l1 ++ a :: l2 ∧ ∀ x ∈ l2, p x = false := by
  intro l
  induction l with
  | nil => intro a h; simp at h
  | cons b t ih =>
    intro a h
    by_cases hb : p b
    · rw [List.filter_cons_of_pos hb] at h
      cases hft : t.filter p with
      | nil =>
        rw [hft] at h
        simp only [List.getLast?_singleton, Option.some.injEq] at h
        refine ⟨[], t, by simp [h], ?_⟩
        intro x hx
        have := List.filter_eq_nil_iff.mp hft x hx
        simpa using this
      | cons c fl2 =>
        rw [hft, List.getLast?_cons_cons] at h
        have h2 : (t.filter p).getLast? = some a := by rw [hft]; exact h
        obtain ⟨l1, l2, rfl, hl2⟩ := ih h2
        exact ⟨b :: l1, l2, rfl, hl2⟩
    · rw [List.filter_cons_of_neg hb] at h
      obtain ⟨l1, l2, rfl, hl2⟩ := ih h
      exact ⟨b :: l1, l2, rfl, hl2⟩

/-- Unfolding of a successful backward match: the matched quote is the
positional last of the candidate filter and passes the tolerance check. -/
theorem asofBackwardMatch_eq_some {tol : Int} {quotes : List Quote} {t : Trade}
    {q : Quote} (h : asofBackwardMatch tol quotes t = some q) :
    (quotes.filter (backCandidate t)).getLast? = some q ∧ t.ts - q.ts ≤ tol := by
  unfold asofBackwardMatch at h
  rcases Option.bind_eq_some.mp h with ⟨q0, hq0, hif⟩
  by_cases htol : t.ts - q0.ts ≤ tol
  · rw [if_pos htol] at hif
    cases hif
    exact ⟨hq0, htol⟩
  · rw [if_neg htol] at hif
    cases hif

/-! ### Claim theorems -/

/-- C1: for every JoinedRecord of the shard join with a non-null quote, the
selected quote's timestamp is at or before the trade's timestamp, and no
quote of the shard in the same by-group with timestamp at or before the
trade's is strictly more recent than the selected one.  The shard's quote
frame is sorted by timestamp, as `join_asof` requires. -/
theorem backward_join_correct (trades : List Trade) (quotes : List Quote)
    (hsort : quotes.Pairwise (fun a b => a.ts ≤ b.ts))
    (r : JoinedRecord) (hr : r ∈ per_symbol_per_hour_lazy trades quotes)
    (q : Quote) (hq : r.quote = some q) :
    q.ts ≤ r.trade.ts ∧
      ∀ q2 ∈ quotes, sameSym q2 r.trade = true → q2.ts ≤ r.trade.ts → q2.ts ≤ q.ts := by
  rcases List.mem_map.mp hr with ⟨t, _, rfl⟩
  simp only at hq
  obtain ⟨hlast, -⟩ := asofBackwardMatch_eq_some hq
  have hq_mem := getLast?_eq_some_mem hlast
  have hq_cand : backCandidate t q = true := (List.mem_filter.mp hq_mem).2
  have hq_le : q.ts ≤ t.ts := by
    have := (Bool.and_eq_true _ _).mp hq_cand
    exact of_decide_eq_true this.2
  refine ⟨hq_le, ?_⟩
  intro q2 hq2 hsym hle
  have hcand : backCandidate t q2 = true := by
    unfold backCandidate
    rw [hsym, decide_eq_true hle]
    rfl
  have hub := pairwise_getLast?_ub (hsort.filter (backCandidate t)) hlast q2
    (List.mem_filter.mpr ⟨hq2, hcand⟩)
  rcases hub with rfl | hub
  · exact le_refl _
  · exact hub

/-- Witness for C1 at a concrete shard: two timestamp-tied quotes, one
trade. -/
theorem backward_join_correct_witness :
    q100b.ts ≤ (JoinedRecord.mk t100 (some q100b)).trade.ts ∧
      ∀ q2 ∈ [q100a, q100b],
        sameSym q2 (JoinedRecord.mk t100 (some q100b)).trade = true →
        q2.ts ≤ (JoinedRecord.mk t100 (some q100b)).trade.ts → q2.ts ≤ q100b.ts :=
  backward_join_correct [t100] [q100a, q100b]
    (by simp [List.pairwise_cons, q100a, q100b])
    ⟨t100, some q100b⟩ (by decide) q100b rfl

/-- C2: if no quote of the shard is in the trade's by-group with timestamp
at or before the trade's and within the one-second tolerance, then the
trade's joined quote fields are null. -/
theorem tolerance_enforced (trades : List Trade) (quotes : List Quote)
    (r : JoinedRecord) (hr : r ∈ per_symbol_per_hour_lazy trades quotes)
    (h : ∀ q ∈ quotes, ¬(sameSym q r.trade = true ∧ q.ts ≤ r.trade.ts ∧
          r.trade.ts - q.ts ≤ TOLERANCE_US)) :
    r.quote = none := by
  rcases List.mem_map.mp hr with ⟨t, _, rfl⟩
  simp only
  cases hm : asofBackwardMatch TOLERANCE_US quotes t with
  | none => rfl
  | some q =>
    exfalso
    obtain ⟨hlast, htol⟩ := asofBackwardMatch_eq_some hm
    have hq_mem := getLast?_eq_some_mem hlast
    have hq_cand : backCandidate t q = true := (List.mem_filter.mp hq_mem).2
    have hpair := (Bool.and_eq_true _ _).mp hq_cand
    exact h q (List.mem_filter.mp hq_mem).1
      ⟨hpair.1, of_decide_eq_true hpair.2, htol⟩

/-- Witness for C2: a single stale quote one-point-nine seconds before the
trade is rejected and the joined quote fields are null. -/
theorem tolerance_enforced_witness :
    (JoinedRecord.mk tFar (asofBackwardMatch TOLERANCE_US [qOld] tFar)).quote = none :=
  tolerance_enforced [tFar] [qOld]
    ⟨tFar, asofBackwardMatch TOLERANCE_US [qOld] tFar⟩
    (by simp [per_symbol_per_hour_lazy, join_asof_backward])
    (by decide)

/-- C4 counterexample: two eligible quotes tie at the trade's timestamp;
the join selects the positionally last one, `q100b`, whose sequence number
3 is lower than the sequence number 5 of the tied quote `q100a` — not the
highest-sequence-number tie as claimed. -/
theorem tie_break_seq_counterexample :
    per_symbol_per_hour_lazy [t100] [q100a, q100b] = [⟨t100, some q100b⟩] ∧
    sameSym q100a t100 = true ∧ q100a.ts ≤ t100.ts ∧
    t100.ts - q100a.ts ≤ TOLERANCE_US ∧
    q100a.ts = q100b.ts ∧ q100b.seq < q100a.seq := by decide

/-- C4 amended: when several quotes of the by-group are eligible (timestamp
at or before the trade's), the shard join selects the positionally last one
in the quote frame's row order — in particular the last among timestamp
ties — and the native sequence number is not consulted. -/
theorem tie_break_last_in_row_order (trades : List Trade) (quotes : List Quote)
    (r : JoinedRecord) (hr : r ∈ per_symbol_per_hour_lazy trades quotes)
    (q : Quote) (hq : r.quote = some q) :
    (sameSym q r.trade = true ∧ q.ts ≤ r.trade.ts) ∧
      ∃ l1 l2, quotes = l1 ++ q :: l2 ∧
        ∀ q2 ∈ l2, ¬(sameSym q2 r.trade = true ∧ q2.ts ≤ r.trade.ts) := by
  rcases List.mem_map.mp hr with ⟨t, _, rfl⟩
  simp only at hq ⊢
  obtain ⟨hlast, -⟩ := asofBackwardMatch_eq_some hq
  have hq_mem := getLast?_eq_some_mem hlast
  have hq_cand : backCandidate t q = true := (List.mem_filter.mp hq_mem).2
  have hpair := (Bool.and_eq_true _ _).mp hq_cand
  refine ⟨⟨hpair.1, of_decide_eq_true hpair.2⟩, ?_⟩
  obtain ⟨l1, l2, rfl, hl2⟩ := filter_getLast?_split (backCandidate t) hlast
  refine ⟨l1, l2, rfl, ?_⟩
  intro q2 hq2 ⟨hsym, hle⟩
  have : backCandidate t q2 = true := by
    unfold backCandidate
    rw [hsym, decide_eq_true hle]
    rfl
  rw [hl2 q2 hq2] at this
  cases this

/-- Witness for C4's amended theorem at the concrete tied shard. -/
theorem tie_break_last_in_row_order_witness :
    (sameSym q100b (JoinedRecord.mk t100 (some q100b)).trade = true ∧
      q100b.ts ≤ (JoinedRecord.mk t100 (some q100b)).trade.ts) ∧
    ∃ l1 l2, [q100a, q100b] = l1 ++ q100b :: l2 ∧
      ∀ q2 ∈ l2, ¬(sameSym q2 (JoinedRecord.mk t100 (some q100b)).trade = true ∧
        q2.ts ≤ (JoinedRecord.mk t100 (some q100b)).trade.ts) :=
  tie_break_last_in_row_order [t100] [q100a, q100b]
    ⟨t100, some q100b⟩ (by decide) q100b rfl

/-- C8: the backward shard join is row-conserving — it emits exactly one
JoinedRecord per input trade, in order: the output length equals the trade
count and projecting the trade side returns the input trade list. -/
theorem row_conservation (trades : List Trade) (quotes : List Quote) :
    (per_symbol_per_hour_lazy trades quotes).length = trades.length ∧
    (per_symbol_per_hour_lazy trades quotes).map JoinedRecord.trade = trades := by
  constructor
  · simp [per_symbol_per_hour_lazy, join_asof_backward]
  · simp [per_symbol_per_hour_lazy, join_asof_backward, List.map_map, Function.comp_def]

/-- C3 counterexample: two records of the same date, hour, minute and
second whose true times differ by 400 nanoseconds (below a microsecond) are
mapped by `build_ts_us` to the same TS value, so the builder does lose
sub-microsecond precision. -/
theorem ts_truncation_counterexample :
    build_ts_us 0 ⟨10, 0, 0, 500⟩ = build_ts_us 0 ⟨10, 0, 0, 900⟩ ∧
    true_ts_ns 0 ⟨10, 0, 0, 500⟩ ≠ true_ts_ns 0 ⟨10, 0, 0, 900⟩ := by decide

/-- C3 amended: `build_ts_us` produces a microsecond-resolution TS — the
floor of the true nanosecond instant to whole microseconds (the `TIME_M`
nanosecond component is integer-divided by 1000).  Ordering is preserved
only at microsecond granularity: the map is monotone, but events that
differ only below a microsecond collapse to the same TS. -/
theorem build_ts_us_floor (d1 d2 : Int) (t1 t2 : TimeOfDay) :
    build_ts_us d1 t1 = true_ts_ns d1 t1 / 1000 ∧
    (true_ts_ns d1 t1 ≤ true_ts_ns d2 t2 → build_ts_us d1 t1 ≤ build_ts_us d2 t2) := by
  unfold build_ts_us true_ts_ns
  constructor
  · push_cast
    omega
  · intro h
    push_cast at h ⊢
    omega

/-- Witness for C3's amended theorem at concrete inputs. -/
theorem build_ts_us_floor_witness :
    build_ts_us 0 ⟨10, 0, 0, 500⟩ = true_ts_ns 0 ⟨10, 0, 0, 500⟩ / 1000 ∧
    build_ts_us 0 ⟨10, 0, 0, 500⟩ ≤ build_ts_us 0 ⟨10, 0, 0, 900⟩ :=
  ⟨(build_ts_us_floor 0 0 ⟨10, 0, 0, 500⟩ ⟨10, 0, 0, 900⟩).1,
    (build_ts_us_floor 0 0 ⟨10, 0, 0, 500⟩ ⟨10, 0, 0, 900⟩).2 (by decide)⟩

/-- C9: evaluation of the driver at a failing input.  On the run whose
second chunk write raises, the writer has been opened and the run aborts
with the writer never closed (`closeCount = 0`): `main` only reaches
`writer.close()` after the loop completes normally, so the claimed
close-on-every-exit-path property fails on the code.  On a clean run the
lazily opened writer is closed exactly once, and a run that never writes
never opens it. -/
theorem writer_not_closed_on_failure :
    (main_run failingShards).writerOpen = true ∧
    (main_run failingShards).aborted = true ∧
    (main_run failingShards).closeCount = 0 ∧
    (main_run cleanShards).closeCount = 1 ∧
    (main_run [ShardOutcome.noData]).writerOpen = false := by decide

/-- C5 counterexample: `analyze_ticker` applies no non-null filter on PRICE
or SIZE.  On a two-row input whose first row has null PRICE and SIZE, both
rows survive into the metric frame, the null-PRICE row is assigned SIDE −1,
and the summary count is 2, not 1. -/
theorem metrics_no_null_filter_counterexample :
    (analyze_ticker [rNullPrice, rOk] "UBER").map (fun m => m.row.price)
      = [none, some 11] ∧
    (analyze_ticker [rNullPrice, rOk] "UBER").map MetricRow.sideV = [-1, 1] ∧
    summary_n_rows [rNullPrice, rOk] "UBER" = 2 := by decide

/-- C5 amended: the metric stage retains every row of the ticker — rows
with null PRICE or SIZE included.  The metric frame projects back to the
ticker-filtered TS-sorted row sequence unchanged, and `N_ROWS` counts every
ticker row; null execution fields drop out of the cost metrics only through
the denominator guards and null propagation, not through a filter. -/
theorem metrics_retain_all_rows (merged : List MergedRow) (ticker : String) :
    (analyze_ticker merged ticker).map MetricRow.row = base_rows merged ticker ∧
    summary_n_rows merged ticker =
      (merged.filter (fun r => r.symRoot == ticker)).length := by
  constructor
  · apply List.ext_getElem?
    intro i
    simp [analyze_ticker, List.getElem?_mapIdx, Option.map_map, Function.comp_def]
  · simp [summary_n_rows, analyze_ticker, base_rows, List.length_insertionSort]

/-- C6 counterexample: ARR_MID falls back to the current row's MID whenever
the previous row's MID is null, not only on the first row.  On the second
row (index 1), whose predecessor has a null MID, the lag is null yet
ARR_MID is the current MID 100, and IS_BPS is non-null. -/
theorem arr_mid_fallback_counterexample :
    mid_lag [rNullMid, rMid] 1 = none ∧
    arr_mid [rNullMid, rMid] 1 = some 100 ∧
    is_bps [rNullMid, rMid] 1 ≠ none ∧
    (1 : Nat) ≠ 0 := by
  refine ⟨by decide, by decide, ?_, by decide⟩
  have ha : arr_mid [rNullMid, rMid] 1 = some 100 := by decide
  have hp : colPrice [rNullMid, rMid] 1 = some 101 := by decide
  simp [is_bps, ha, hp]

/-- C6 amended: SIDE is +1 when PRICE ≥ MID and −1 otherwise (including
when either is null); ARR_MID is the previous row's MID, falling back to
the current row's MID whenever the lag is null — on the first row and on
any row whose predecessor has a null MID; and whenever ARR_MID is a value
`a > 0`, IS_BPS is `10000 * SIDE * (PRICE − a) / a` and MI_BPS is
`10000 * SIDE * (MID − a) / a` (null exactly when the numerator column is
null), while `a ≤ 0` yields null for both, never an infinity. -/
theorem is_mi_formula_guard (rows : List MergedRow) (i : Nat) :
    (∀ p m, colPrice rows i = some p → colMid rows i = some m →
        side_col rows i = if m ≤ p then 1 else -1) ∧
    (colPrice rows i = none ∨ colMid rows i = none → side_col rows i = -1) ∧
    (mid_lag rows 0 = none) ∧
    (∀ j m, i = j + 1 → colMid rows j = some m → arr_mid rows i = some m) ∧
    (mid_lag rows i = none → arr_mid rows i = colMid rows i) ∧
    (∀ a, arr_mid rows i = some a → 0 < a →
        is_bps rows i =
          (colPrice rows i).map (fun p => 10000 * side_col rows i * (p - a) / a) ∧
        mi_bps rows i =
          (colMid rows i).map (fun m => 10000 * side_col rows i * (m - a) / a)) ∧
    (∀ a, arr_mid rows i = some a → a ≤ 0 →
        is_bps rows i = none ∧ mi_bps rows i = none) := by
  refine ⟨?_, ?_, rfl, ?_, ?_, ?_, ?_⟩
  · intro p m hp hm
    simp [side_col, sideOf, geNullFalse, hp, hm]
  · intro h
    rcases h with h | h <;> simp [side_col, sideOf, geNullFalse, h]
  · intro j m hij hm
    subst hij
    simp [arr_mid, mid_lag, hm]
  · intro h
    simp [arr_mid, h]
  · intro a ha hpos
    simp [is_bps, mi_bps, ha, hpos]
  · intro a ha hneg
    have : ¬(0 : ℚ) < a := not_lt.mpr hneg
    simp [is_bps, mi_bps, ha, this]

/-- Witness for C6's amended theorem on a concrete two-row sequence:
the second row's ARR_MID is its own MID 100 (null lag), and its IS_BPS
evaluates through the formula to 100 bps for PRICE 101, SIDE +1. -/
theorem is_mi_formula_guard_witness :
    side_col [rNullMid, rMid] 1 = 1 ∧
    arr_mid [rNullMid, rMid] 1 = colMid [rNullMid, rMid] 1 ∧
    is_bps [rNullMid, rMid] 1 = some 100 := by
  have h := is_mi_formula_guard [rNullMid, rMid] 1
  have hp : colPrice [rNullMid, rMid] 1 = some 101 := by decide
  have hm : colMid [rNullMid, rMid] 1 = some 100 := by decide
  have hside : side_col [rNullMid, rMid] 1 = 1 := by
    rw [h.1 101 100 hp hm]
    norm_num
  refine ⟨hside, h.2.2.2.2.1 (by decide), ?_⟩
  have hfm := (h.2.2.2.2.2.1 100 (by decide) (by norm_num)).1
  rw [hfm, hp]
  simp only [Option.map_some', hside]
  norm_num

/-- C7: MID_FWD at row `i` is the MID of the row `K_FWD_TRADES = 10`
positions ahead in the sorted sequence, and is null — never wrapped or
padded — when that row does not exist; MR_BPS is
`10000 * (−SIDE) * (MID_FWD − MID) / MID` when MID is a value `> 0` (null
exactly when MID_FWD is null), is null when MID ≤ 0, and in particular is
null on every row within `K_FWD_TRADES` of the end of the sequence. -/
theorem mr_semantics (rows : List MergedRow) (i : Nat) :
    K_FWD_TRADES = 10 ∧
    mid_fwd rows i = (rows.get? (i + K_FWD_TRADES)).bind MergedRow.mid ∧
    (rows.length ≤ i + K_FWD_TRADES → mid_fwd rows i = none) ∧
    (∀ m, colMid rows i = some m → 0 < m →
        mr_bps rows i =
          (mid_fwd rows i).map (fun f => 10000 * (-(side_col rows i)) * (f - m) / m)) ∧
    (∀ m, colMid rows i = some m → m ≤ 0 → mr_bps rows i = none) ∧
    (rows.length ≤ i + K_FWD_TRADES → mr_bps rows i = none) := by
  have hnone : rows.length ≤ i + K_FWD_TRADES → mid_fwd rows i = none := by
    intro h
    have h2 : rows[i + K_FWD_TRADES]? = none := List.getElem?_eq_none h
    simp [mid_fwd, colMid, h2]
  refine ⟨rfl, rfl, hnone, ?_, ?_, ?_⟩
  · intro m hm hpos
    simp [mr_bps, hm, hpos]
  · intro m hm hneg
    have : ¬(0 : ℚ) < m := not_lt.mpr hneg
    simp [mr_bps, hm, this]
  · intro h
    cases hm : colMid rows i with
    | none => simp [mr_bps, hm]
    | some m => simp [mr_bps, hm, hnone h]

/-- Witness for C7 on a one-row sequence: no 10th-ahead successor exists,
so MID_FWD and MR_BPS are null even though MID is 100 > 0. -/
theorem mr_semantics_witness :
    mid_fwd [rMid] 0 = none ∧ mr_bps [rMid] 0 = none :=
  ⟨(mr_semantics [rMid] 0).2.2.1 (by decide),
    (mr_semantics [rMid] 0).2.2.2.2.2 (by decide)⟩

/-- C10: SIDE is total — every row carries +1 or −1, never null — and on
every row whose PRICE is null (a quote row with no matched trade) the
otherwise-branch assigns SIDE = −1, which flows into any downstream
computation consuming those rows. -/
theorem side_null_price (rows : List MergedRow) (i : Nat) :
    (side_col rows i = 1 ∨ side_col rows i = -1) ∧
    (colPrice rows i = none → side_col rows i = -1) := by
  constructor
  · unfold side_col sideOf
    by_cases h : geNullFalse (colPrice rows i) (colMid rows i) <;> simp [h]
  · intro h
    simp [side_col, sideOf, geNullFalse, h]

/-- Witness for C10 at the concrete null-PRICE row. -/
theorem side_null_price_witness :
    (side_col [rNullPrice] 0 = 1 ∨ side_col [rNullPrice] 0 = -1) ∧
    side_col [rNullPrice] 0 = -1 :=
  ⟨(side_null_price [rNullPrice] 0).1,
    (side_null_price [rNullPrice] 0).2 (by decide)⟩

end TAQ
